import Mathlib

/-!
# Verification of the hal-9000 sensitive-path access-control gate

Shallow embedding of `plugins/hal-9000/hooks/file_access_hook.py` and
`plugins/hal-9000/hooks/security_audit.py`.

Strings are modelled as `List Char` (`S` below).  Python's `str.lower`
is modelled as ASCII lowercasing (all rule-table entries are ASCII).
Filesystem symlink resolution (`os.path.realpath`) is modelled as an
abstract resolver function `Resolver : S → Except S S`; an `Except.error`
models the `(OSError, ValueError)` branch of the source.  Audit events
are collected in an explicit list instead of being written as a side
effect; their on-disk line format is modelled separately for the
audit-logger theorems.
-/

/-- Model of Python strings: a list of characters. -/
abbrev S := List Char

/-- Shorthand to turn a Lean string literal into the model type. -/
def str (s : String) : S := s.data

/-- Model of Python `str.lower` (ASCII range only, which covers every
rule-table constant in the source). -/
def lowerS (s : S) : S := s.map Char.toLower

/-! ## Path helpers: `os.path.basename`, `posixpath.normpath` -/

/-- Split a character list on `'/'`, keeping empty fields, exactly like
Python's `path.split('/')`.  The result is always non-empty. -/
def splitSlash : S → List S
  | [] => [[]]
  | c :: rest =>
    if c = '/' then [] :: splitSlash rest
    else
      match splitSlash rest with
      | [] => [[c]]
      | r :: rs => (c :: r) :: rs

/-- `os.path.basename`: everything after the last slash. -/
def basenameS (p : S) : S := (splitSlash p).getLastD []

/-- Join components with `'/'`, like Python's `'/'.join(comps)`. -/
def joinSlash : List S → S
  | [] => []
  | [x] => x
  | x :: xs => x ++ '/' :: joinSlash xs

/-- One step of the `posixpath.normpath` component loop: skip empty and
`'.'` components, append ordinary components, and pop on `'..'` unless
the accumulator situation forbids it. -/
def npStep (initSlashes : Nat) (acc : List S) (comp : S) : List S :=
  if comp = [] ∨ comp = str "." then acc
  else if comp ≠ str ".." ∨ (initSlashes = 0 ∧ acc = []) ∨
          (acc ≠ [] ∧ acc.getLast? = some (str "..")) then acc ++ [comp]
  else acc.dropLast

/-- Number of leading slashes retained by `posixpath.normpath`:
one for `/...` and `///...`, two for exactly `//...`. -/
def npInitSlashes (p : S) : Nat :=
  if p.take 3 = str "///" then 1
  else if p.take 2 = str "//" then 2
  else if p.take 1 = str "/" then 1
  else 0

/-- `posixpath.normpath`: purely lexical normalisation (collapse `.`,
`..` and redundant separators), no filesystem access. -/
def normpathS (p : S) : S :=
  if p = [] then str "."
  else
    let initSlashes := npInitSlashes p
    let newComps := (splitSlash p).foldl (npStep initSlashes) []
    let joined := List.replicate initSlashes '/' ++ joinSlash newComps
    if joined = [] then str "." else joined

/-! ## A small regular-expression engine (Brzozowski derivatives)

The source matches its rule tables with Python `re`.  The patterns use
only literals, character classes, `.`, `*`, `+` and `?`, with explicit
`^`/`$` anchors on the filename patterns and a trailing `$` on the path
patterns.  Python-specific behaviour modelled here: `.` does not match a
newline, and `$` matches at the end of the string or just before a
single trailing newline (handled by `dollarVariants` below). -/

inductive RE where
  | emp : RE
  | eps : RE
  | cls (p : Char → Bool) : RE
  | cat (a b : RE) : RE
  | alt (a b : RE) : RE
  | star (a : RE) : RE

def RE.nullable : RE → Bool
  | .emp => false
  | .eps => true
  | .cls _ => false
  | .cat a b => a.nullable && b.nullable
  | .alt a b => a.nullable || b.nullable
  | .star _ => true

/-- Smart concatenation (keeps derivative terms small). -/
def scat : RE → RE → RE
  | .emp, _ => .emp
  | .eps, b => b
  | a, b =>
    match b with
    | .emp => .emp
    | .eps => a
    | _ => .cat a b

/-- Smart alternation (keeps derivative terms small). -/
def salt : RE → RE → RE
  | .emp, b => b
  | a, b =>
    match b with
    | .emp => a
    | _ => .alt a b

def RE.deriv : RE → Char → RE
  | .emp, _ => .emp
  | .eps, _ => .emp
  | .cls p, c => if p c then .eps else .emp
  | .cat a b, c =>
    if a.nullable then salt (scat (a.deriv c) b) (b.deriv c)
    else scat (a.deriv c) b
  | .alt a b, c => salt (a.deriv c) (b.deriv c)
  | .star a, c => scat (a.deriv c) (.star a)

/-- Whole-string match of a regular expression. -/
def reMatch (r : RE) : S → Bool
  | [] => r.nullable
  | c :: cs => reMatch (r.deriv c) cs

/-- Literal single character. -/
def RE.lit (c : Char) : RE := .cls (fun d => d = c)

/-- Literal string. -/
def reStr (s : String) : RE := s.data.foldr (fun c r => RE.cat (RE.lit c) r) .eps

/-- Python `.`: any character except a newline. -/
def reDot : RE := .cls (fun c => c.toNat ≠ 10)

/-- Any character at all (used to embed `re.search` as a whole match). -/
def reAny : RE := .cls (fun _ => true)

def rePlus (r : RE) : RE := .cat r (.star r)

def reOpt (r : RE) : RE := .alt r .eps

/-- The positions at which Python's `$` can anchor: the end of the
string, or just before one trailing newline. -/
def dollarVariants (s : S) : List S :=
  if s.getLast? = some '\n' then [s, s.dropLast] else [s]

/-- `re.match(r'^core$', s)` for an anchored pattern `core`. -/
def pyMatchFull (r : RE) (s : S) : Bool := (dollarVariants s).any (reMatch r)

/-- `re.search(r'core$', s)`: the match may start anywhere, so it is a
whole match of `.*core` with `.` replaced by "any char" (characters
before the match are unconstrained, newlines included). -/
def pySearchEnd (r : RE) (s : S) : Bool :=
  (dollarVariants s).any (reMatch (.cat (.star reAny) r))

/-! ## Rule tables (`file_access_hook.py`, CONFIGURATION section) -/

/-- `SENSITIVE_FILENAMES`: exact filename matches (compared against the
lower-cased basename). -/
def SENSITIVE_FILENAMES : List S :=
  [str ".env", str ".envrc", str "credentials.json", str "secrets.json",
   str "id_rsa", str "id_dsa", str "id_ecdsa", str "id_ed25519",
   str ".netrc", str ".npmrc", str ".pypirc", str "known_hosts",
   str "config.json", str ".pgpass", str ".my.cnf", str ".pgservice.conf"]

/-- Character class `[a-zA-Z0-9_.-]` of the `.env.*` filename pattern. -/
def envTailClass (c : Char) : Bool :=
  (97 ≤ c.toNat && c.toNat ≤ 122) || (65 ≤ c.toNat && c.toNat ≤ 90) ||
  (48 ≤ c.toNat && c.toNat ≤ 57) || c = '_' || c = '.' || c = '-'

/-- `^.*X$` for a literal suffix `X`. -/
def reEnds (s : String) : RE := .cat (.star reDot) (reStr s)

/-- `SENSITIVE_FILENAME_PATTERNS` (anchors `^`/`$` handled by
`pyMatchFull`; patterns are matched against the lower-cased basename, so
embedding them case-sensitively is equivalent to `re.IGNORECASE`). -/
def SENSITIVE_FILENAME_PATTERNS : List RE :=
  [.cat (reStr ".env.") (rePlus (.cls envTailClass)),
   .cat (.star reDot) (.cat (reStr "credentials") (.cat (.star reDot) (reStr ".json"))),
   .cat (.star reDot) (.cat (reStr "secrets") (.cat (.star reDot) (reStr ".json"))),
   reEnds ".pem", reEnds ".key", reEnds ".p12", reEnds ".pfx", reEnds ".jks",
   reEnds "_rsa", reEnds "_dsa", reEnds "_ecdsa", reEnds "_ed25519"]

/-- `SENSITIVE_PATH_PATTERNS` (matched with `re.search` anywhere in the
lower-cased path, each ending in `$`, handled by `pySearchEnd`). -/
def SENSITIVE_PATH_PATTERNS : List RE :=
  [reStr ".aws/credentials", reStr ".aws/config", reStr ".kube/config",
   reStr ".docker/config.json", reStr ".ssh/id_rsa", reStr ".ssh/id_dsa",
   reStr ".ssh/id_ecdsa", reStr ".ssh/id_ed25519", reStr ".ssh/known_hosts",
   .cat (reStr ".gnupg/") (.star reDot),
   .cat (reStr ".password-store/") (.star reDot)]

/-- The `sensitive_dirs` table of `check_directory_for_sensitive_files`
(`\.aws/?$` and friends, matched against the lower-cased resolved path). -/
def SENSITIVE_DIRS : List RE :=
  [.cat (reStr ".aws") (reOpt (.lit '/')),
   .cat (reStr ".ssh") (reOpt (.lit '/')),
   .cat (reStr ".gnupg") (reOpt (.lit '/')),
   .cat (reStr ".kube") (reOpt (.lit '/')),
   .cat (reStr ".docker") (reOpt (.lit '/')),
   .cat (reStr ".password-store") (reOpt (.lit '/'))]

/-- The `sensitive_glob_patterns` substring list of
`extract_path_from_tool` (checked against the lower-cased glob). -/
def SENSITIVE_GLOB_PATTERNS : List S :=
  [str ".env", str "secret", str "credential", str "password", str "key",
   str ".ssh", str ".aws", str ".gnupg", str ".kube", str ".docker",
   str ".pgpass", str ".my.cnf", str ".netrc", str ".npmrc", str ".pypirc",
   str "id_rsa", str "id_ed25519", str "id_ecdsa", str "authorized_keys",
   str ".git-credentials", str ".boto", str "credentials.json"]

/-- Python substring containment (`needle in hay`). -/
def containsSub (needle : S) : S → Bool
  | [] => needle.isPrefixOf []
  | c :: rest => needle.isPrefixOf (c :: rest) || containsSub needle rest

/-! ## The decision pipeline (`file_access_hook.py`) -/

/-- Abstract model of `os.path.realpath`: either the fully resolved
path, or an error message (the `(OSError, ValueError)` branch). -/
def Resolver := S → Except S S

/-- Audit events, by kind and payload, as raised by the hook.  In the
source they are written to the security log as a side effect; here they
are collected in a list. -/
inductive AuditEvent where
  | symlinkBypass (original resolved : S) : AuditEvent
  | hookDeny (tool file reason : S) : AuditEvent
  | secretAccess (tool file : S) : AuditEvent
  | hookTimeout (tool : S) (timeoutSeconds : Nat) : AuditEvent
  | hookError (tool error : S) : AuditEvent
deriving DecidableEq

/-- The fail-closed reason produced when resolution raises
(`f"Cannot resolve path '{file_path}' (fail-closed): {e}"`). -/
def cannotResolveReason (p e : S) : S :=
  str "Cannot resolve path '" ++ p ++ str "' (fail-closed): " ++ e

/-- The body of the per-path loop of `is_sensitive_file`: exact-filename
tier, then filename-pattern tier, then path-pattern tier, returning the
first matching tier's reason. -/
def classifyOne (path pathType : S) : Option S :=
  let pathLower := lowerS path
  let filename := lowerS (basenameS path)
  if SENSITIVE_FILENAMES.contains filename then
    some (str "Blocked: '" ++ filename ++ str "' is a sensitive file (" ++
          pathType ++ str ": " ++ path ++ str ")")
  else if SENSITIVE_FILENAME_PATTERNS.any (fun r => pyMatchFull r filename) then
    some (str "Blocked: '" ++ filename ++ str "' matches sensitive file pattern (" ++
          pathType ++ str ": " ++ path ++ str ")")
  else if SENSITIVE_PATH_PATTERNS.any (fun r => pySearchEnd r pathLower) then
    some (str "Blocked: path matches sensitive pattern (" ++ pathType ++
          str ": " ++ path ++ str ")")
  else none

/-- The `for path, path_type in paths_to_check` loop. -/
def classifyPaths : List (S × S) → Bool × Option S
  | [] => (false, none)
  | (p, t) :: rest =>
    match classifyOne p t with
    | some reason => (true, some reason)
    | none => classifyPaths rest

/-- `is_sensitive_file`: checks both the normalised original path and the
symlink-resolved path; emits a `SYMLINK_BYPASS_ATTEMPT` audit event
whenever the two differ; fails closed when resolution errors.  Returns
the `(is_sensitive, reason)` pair together with the audit events
written during the call. -/
def is_sensitive_file (res : Resolver) (filePath : S) :
    (Bool × Option S) × List AuditEvent :=
  if filePath = [] then ((false, none), [])
  else
    match res filePath with
    | .error e => ((true, some (cannotResolveReason filePath e)), [])
    | .ok resolvedPath =>
      if normpathS filePath ≠ resolvedPath then
        (classifyPaths
          [(normpathS filePath, str "original path"),
           (resolvedPath, str "resolved path (symlink target)")],
         [.symlinkBypass (normpathS filePath) resolvedPath])
      else
        (classifyPaths [(normpathS filePath, str "path")], [])

/-- `check_directory_for_sensitive_files`: file-pattern check first,
then the sensitive-directory check on the resolved path. -/
def check_directory_for_sensitive_files (res : Resolver) (dirPath : S) :
    (Bool × Option S) × List AuditEvent :=
  if dirPath = [] then ((false, none), [])
  else
    match res dirPath with
    | .error e => ((true, some (cannotResolveReason dirPath e)), [])
    | .ok resolvedPath =>
      if (is_sensitive_file res dirPath).1.1 then
        ((true, (is_sensitive_file res dirPath).1.2), (is_sensitive_file res dirPath).2)
      else if SENSITIVE_DIRS.any (fun r => pySearchEnd r (lowerS resolvedPath)) then
        ((true, some (str "Blocked: searching in sensitive directory '" ++
                      resolvedPath ++ str "'")), (is_sensitive_file res dirPath).2)
      else ((false, none), (is_sensitive_file res dirPath).2)

/-- Tool input: a mapping from parameter names to string values
(`tool_input.get(k, "")`). -/
def ToolInput := List (S × S)

/-- `tool_input.get(key, "")`. -/
def getParam (ti : ToolInput) (key : S) : S := ((ti.lookup key).getD [])

/-- The `for pattern in sensitive_glob_patterns` loop of
`extract_path_from_tool`: does the lower-cased glob contain one of the
fixed sensitive substrings? -/
def globIsSuspicious (globPattern : S) : Bool :=
  SENSITIVE_GLOB_PATTERNS.any (fun q => containsSub q (lowerS globPattern))

/-- `extract_path_from_tool`: per-tool path extraction.  Note that for
Grep a glob containing a sensitive substring *replaces* the path as the
single returned candidate, and that an absent path defaults to `"."`
whether or not a glob is present. -/
def extract_path_from_tool (toolName : S) (ti : ToolInput) : Option S :=
  if toolName = str "Read" ∨ toolName = str "Write" ∨ toolName = str "Edit" then
    some (getParam ti (str "file_path"))
  else if toolName = str "Grep" then
    if getParam ti (str "glob") ≠ [] ∧ globIsSuspicious (getParam ti (str "glob")) then
      some (getParam ti (str "glob"))
    else some (if getParam ti (str "path") ≠ [] then getParam ti (str "path") else str ".")
  else if toolName = str "NotebookEdit" then
    some (getParam ti (str "notebook_path"))
  else none

/-- Hook input (`{"tool_name": ..., "tool_input": {...}}`). -/
structure HookData where
  tool_name : S
  tool_input : ToolInput

/-- The fixed remediation text appended to every block reason. -/
def remediationText : S := str
  "\n\nThis hook prevents access to sensitive files that may contain:\n  - API keys and secrets (.env, credentials.json)\n  - Cryptographic keys (*.pem, *.key, id_rsa)\n  - Cloud credentials (.aws/credentials, .kube/config)\n  - Authentication tokens (.npmrc, .pypirc, .netrc)\n\nNOTE: Symlink bypass is blocked - both original and resolved paths are checked.\n\nIf you need to work with these files:\n  1. Use environment variables instead of reading files directly\n  2. Ask the user to provide specific non-sensitive values\n  3. Use the `env-safe` command to safely inspect .env files"

/-- `reason or "sensitive file"`: the reason passed to `audit_hook_deny`
(falsy reasons, i.e. `None` or the empty string, are replaced). -/
def auditReasonOf : Option S → S
  | some r => if r = [] then str "sensitive file" else r
  | none => str "sensitive file"

/-- `f"{reason}\n\n..."`: the classifier reason followed by the fixed
remediation text. -/
def fullReasonOf : Option S → S
  | some r => r ++ remediationText
  | none => str "None" ++ remediationText

/-- The candidate classification step of `check_file_access`: Grep
candidates go through the directory check, every other gated tool's
candidate through `is_sensitive_file`. -/
def classifyCandidate (res : Resolver) (toolName filePath : S) :
    (Bool × Option S) × List AuditEvent :=
  if toolName = str "Grep" then check_directory_for_sensitive_files res filePath
  else is_sensitive_file res filePath

/-- `check_file_access`: the decision pipeline.  Returns the
`(decision, reason)` pair (decision is `"allow"` or `"block"`) and the
audit events written during the call. -/
def check_file_access (res : Resolver) (data : HookData) :
    (S × Option S) × List AuditEvent :=
  if ¬ (data.tool_name = str "Read" ∨ data.tool_name = str "Write" ∨
        data.tool_name = str "Edit" ∨ data.tool_name = str "Grep" ∨
        data.tool_name = str "NotebookEdit") then
    ((str "allow", none), [])
  else
    match extract_path_from_tool data.tool_name data.tool_input with
    | none => ((str "allow", none), [])
    | some filePath =>
      if filePath = [] then ((str "allow", none), [])
      else if (classifyCandidate res data.tool_name filePath).1.1 then
        ((str "block",
          some (fullReasonOf (classifyCandidate res data.tool_name filePath).1.2)),
         (classifyCandidate res data.tool_name filePath).2 ++
           [.hookDeny data.tool_name filePath
              (auditReasonOf (classifyCandidate res data.tool_name filePath).1.2),
            .secretAccess data.tool_name filePath])
      else ((str "allow", none), (classifyCandidate res data.tool_name filePath).2)

/-! ## Audit logger (`security_audit.py`) -/

/-- One step of the ANSI scan: after an ESC, try to consume
`\[ [0-9;]* [A-Za-z]`, returning the remainder on success
(the regex `\x1b\[[0-9;]*[A-Za-z]` needs no backtracking because the
digit/semicolon class and the letter class are disjoint). -/
def csiTail : S → Option S
  | [] => none
  | c :: rest =>
    if c.isDigit || c = ';' then csiTail rest
    else if (65 ≤ c.toNat && c.toNat ≤ 90) || (97 ≤ c.toNat && c.toNat ≤ 122) then
      some rest
    else none

theorem csiTail_length {l l' : S} (h : csiTail l = some l') : l'.length < l.length := by
  induction l generalizing l' with
  | nil => simp [csiTail] at h
  | cons c rest ih =>
    simp only [csiTail] at h
    split at h
    · exact Nat.lt_trans (ih h) (Nat.lt_succ_self _)
    · split at h
      · cases h; exact Nat.lt_succ_self _
      · cases h

def tryCSI : S → Option S
  | [] => none
  | c :: rest => if c = '[' then csiTail rest else none

theorem tryCSI_length {l l' : S} (h : tryCSI l = some l') : l'.length < l.length := by
  match l with
  | [] => simp [tryCSI] at h
  | c :: rest =>
    simp only [tryCSI] at h
    split at h
    · exact Nat.lt_trans (csiTail_length h) (Nat.lt_succ_self _)
    · cases h

/-- `re.sub(r'\x1b\[[0-9;]*[A-Za-z]', '', value)`: strip ANSI escape
sequences; on a failed match at an ESC the character is kept and
scanning resumes at the next character. -/
def ansiStrip : S → S
  | [] => []
  | c :: rest =>
    if c = '\x1b' then
      match h : tryCSI rest with
      | some rest' => ansiStrip rest'
      | none => c :: ansiStrip rest
    else c :: ansiStrip rest
termination_by l => l.length
decreasing_by
  · exact Nat.lt_trans (tryCSI_length h) (Nat.lt_succ_self _)
  · exact Nat.lt_succ_self _
  · exact Nat.lt_succ_self _

/-- `value.replace(t, r)` for a single-character pattern `t`. -/
def replace1 (t : Char) (r : S) : S → S
  | [] => []
  | c :: rest => if c = t then r ++ replace1 t r rest else c :: replace1 t r rest

/-- The character class removed by the final
`re.sub(r'[\x00-\x08\x0b\x0c\x0e-\x1f\x7f]', '', value)`. -/
def isCtrlRemoved (c : Char) : Bool :=
  c.toNat ≤ 8 || c.toNat = 11 || c.toNat = 12 ||
  (14 ≤ c.toNat && c.toNat ≤ 31) || c.toNat = 127

/-- `sanitize_log_value`: ANSI stripped, backslash first, then newline,
carriage return, tab, pipe and quote escaped, then remaining control
characters removed. -/
def sanitize_log_value (value : S) : S :=
  let v := ansiStrip value
  let v := replace1 '\\' (str "\\\\") v
  let v := replace1 '\n' (str "\\n") v
  let v := replace1 '\r' (str "\\r") v
  let v := replace1 '\t' (str "\\t") v
  let v := replace1 '|' (str "\\|") v
  let v := replace1 '"' (str "\\\"") v
  v.filter (fun c => !isCtrlRemoved c)

/-- All ASCII control characters (plus DEL): what the spec calls "raw
control bytes". -/
def isCtrl (c : Char) : Bool := c.toNat < 32 || c.toNat = 127

/-- The line built by `log_security_event` (timestamp, severity, event
and worker are formatted pipe-delimited, details appended, newline
terminated; severity, event and worker are sanitized there, the
timestamp and the pre-sanitized details are not). -/
def log_entry_line (timestamp severity event worker details : S) : S :=
  timestamp ++ str " | " ++ sanitize_log_value severity ++ str " | " ++
  sanitize_log_value event ++ str " | worker=" ++ sanitize_log_value worker ++
  str " " ++ details ++ str "\n"

/-- `' '.join(details_parts)`. -/
def joinSpace : List S → S
  | [] => []
  | [x] => x
  | x :: xs => x ++ ' ' :: joinSpace xs

/-- The details string built by `audit_hook_deny`. -/
def hook_deny_details (tool : S) (filePath : Option S) (reason : S) : S :=
  joinSpace ([str "tool=" ++ sanitize_log_value tool] ++
    (match filePath with
     | some fp =>
       if fp = [] then []
       else [str "file=\"" ++ sanitize_log_value fp ++ str "\""]
     | none => []) ++
    (if reason = [] then []
     else [str "reason=\"" ++ sanitize_log_value reason ++ str "\""]))

/-- The full log line written by `audit_hook_deny` (severity defaults to
WARN). -/
def audit_hook_deny_line (ts worker tool : S) (filePath : Option S)
    (reason : S) (severity : S := str "WARN") : S :=
  log_entry_line ts severity (str "HOOK_DENY") worker
    (hook_deny_details tool filePath reason)

/-- The full log line written by `audit_hook_timeout`. -/
def audit_hook_timeout_line (ts worker tool : S) (timeoutSeconds : Nat) : S :=
  log_entry_line ts (str "WARN") (str "HOOK_TIMEOUT") worker
    (str "tool=" ++ sanitize_log_value tool ++ str " timeout_seconds=" ++
     (Nat.repr timeoutSeconds).data ++ str " action=denied")

/-- The full log line written by `audit_hook_error`. -/
def audit_hook_error_line (ts worker tool error : S) : S :=
  log_entry_line ts (str "ERROR") (str "HOOK_ERROR") worker
    (str "tool=" ++ sanitize_log_value tool ++ str " error=\"" ++
     sanitize_log_value error ++ str "\" action=denied")

/-- The full log line written by `audit_secret_access_attempt`. -/
def audit_secret_access_line (ts worker tool filePath : S) : S :=
  log_entry_line ts (str "WARN") (str "SECRET_ACCESS_ATTEMPT") worker
    (str "tool=" ++ sanitize_log_value tool ++ str " file=\"" ++
     sanitize_log_value filePath ++ str "\"")

/-- The full log line written by `audit_suspicious_activity`. -/
def audit_suspicious_activity_line (ts worker activityType details : S) : S :=
  log_entry_line ts (str "ERROR") (str "SUSPICIOUS_ACTIVITY") worker
    (str "type=" ++ sanitize_log_value activityType ++ str " details=\"" ++
     sanitize_log_value details ++ str "\"")

/-- The full log line written by `audit_symlink_bypass_attempt`. -/
def audit_symlink_bypass_line (ts worker originalPath resolvedPath : S) : S :=
  log_entry_line ts (str "WARN") (str "SYMLINK_BYPASS_ATTEMPT") worker
    (str "original=\"" ++ sanitize_log_value originalPath ++
     str "\" resolved=\"" ++ sanitize_log_value resolvedPath ++ str "\"")

/-- The full log line written by `audit_command_blocked` (the command is
truncated to 200 characters before sanitization). -/
def audit_command_blocked_line (ts worker command reason : S) : S :=
  log_entry_line ts (str "WARN") (str "COMMAND_BLOCKED") worker
    (str "command=\"" ++ sanitize_log_value (command.take 200) ++
     str "\" reason=\"" ++ sanitize_log_value reason ++ str "\"")

/-! ## Log rotation (`rotate_log_if_needed`, `log_security_event`)

The log directory is modelled as a map from rotation suffix to file
content: index `0` is `security.log`, index `i ≥ 1` is
`security.log.{i}`.  `none` means the file does not exist; file size is
content length. -/

def Fs := Nat → Option S

/-- One iteration of the rotation loop at index `i`: delete
`security.log.{maxFiles-1}`, rename other existing `security.log.{i}`
to `.{i+1}` (renames overwrite their target, as `Path.rename` does on
POSIX). -/
def rotateStep (maxFiles : Nat) (fs : Fs) (i : Nat) : Fs :=
  match fs i with
  | none => fs
  | some content =>
    if i = maxFiles - 1 then
      fun j => if j = i then none else fs j
    else
      fun j => if j = i then none else if j = i + 1 then some content else fs j

/-- The loop `for i in range(MAX_LOG_FILES - 1, 0, -1)`: process indices
`k, k-1, ..., 1`. -/
def rotateLoop (maxFiles : Nat) : Fs → Nat → Fs
  | fs, 0 => fs
  | fs, k + 1 => rotateLoop maxFiles (rotateStep maxFiles fs (k + 1)) k

/-- `rotate_log_if_needed`: nothing happens when the log is missing or
below the size threshold; otherwise the numbered rotation runs and the
current log is renamed to `.1`. -/
def rotate_log_if_needed (maxSize maxFiles : Nat) (fs : Fs) : Fs :=
  match fs 0 with
  | none => fs
  | some content =>
    if content.length < maxSize then fs
    else
      let fs1 := rotateLoop maxFiles fs (maxFiles - 1)
      fun j => if j = 0 then none else if j = 1 then some content else fs1 j

/-- The filesystem effect of `log_security_event`: rotate if needed,
then append the entry to `security.log` (creating it when absent). -/
def log_event_fs (maxSize maxFiles : Nat) (fs : Fs) (entry : S) : Fs :=
  let fs1 := rotate_log_if_needed maxSize maxFiles fs
  fun j => if j = 0 then some ((fs1 0).getD [] ++ entry) else fs1 j

/-! ## Spec-side model for the Grep claim -/


/-- Modelled from the spec (section 4.3/4.4): for Grep, up to two
candidates are checked independently — the `path` parameter (defaulting
to the current directory `"."` when absent but a glob is present),
resolved and classified with the directory checks, and, when the glob
contains a sensitive substring, the glob string itself evaluated
pattern-only, skipping filesystem resolution.  Returns whether any
candidate is sensitive. -/
def check_grep_spec (res : Resolver) (ti : ToolInput) : Bool :=
  let path := getParam ti (str "path")
  let globPattern := getParam ti (str "glob")
  let pathCandidate : Option S :=
    if path ≠ [] then some path
    else if globPattern ≠ [] then some (str ".") else none
  let globCandidate : Option S :=
    if globPattern ≠ [] ∧ globIsSuspicious globPattern then some globPattern else none
  let pathSensitive :=
    match pathCandidate with
    | some p => (check_directory_for_sensitive_files res p).1.1
    | none => false
  let globSensitive :=
    match globCandidate with
    | some g => (classifyOne g (str "glob")).isSome
    | none => false
  pathSensitive || globSensitive

/-! ## Helper lemmas: audit events of the classifier -/

/-- Every audit event written by `is_sensitive_file` is a
`SYMLINK_BYPASS_ATTEMPT` event. -/
theorem is_sensitive_file_events (res : Resolver) (p : S) :
    ∀ ev ∈ (is_sensitive_file res p).2, ∃ o r, ev = AuditEvent.symlinkBypass o r := by
  intro ev hev
  unfold is_sensitive_file at hev
  split at hev
  · simp at hev
  · split at hev
    · simp at hev
    · split at hev
      · simp only [List.mem_singleton] at hev
        exact ⟨_, _, hev⟩
      · simp at hev

/-- Every audit event written by `check_directory_for_sensitive_files`
is a `SYMLINK_BYPASS_ATTEMPT` event. -/
theorem check_directory_events (res : Resolver) (p : S) :
    ∀ ev ∈ (check_directory_for_sensitive_files res p).2,
      ∃ o r, ev = AuditEvent.symlinkBypass o r := by
  intro ev hev
  unfold check_directory_for_sensitive_files at hev
  split at hev
  · simp at hev
  · split at hev
    · simp at hev
    · apply is_sensitive_file_events res p ev
      revert hev
      split
      · exact id
      · split
        · exact id
        · exact id

/-- Every audit event written while classifying a candidate is a
`SYMLINK_BYPASS_ATTEMPT` event. -/
theorem classifyCandidate_events (res : Resolver) (t p : S) :
    ∀ ev ∈ (classifyCandidate res t p).2, ∃ o r, ev = AuditEvent.symlinkBypass o r := by
  unfold classifyCandidate
  split
  · exact check_directory_events res p
  · exact is_sensitive_file_events res p

/-! ## Concrete resolvers used by witnesses and counterexamples -/

/-- Resolver on which every path resolves to itself. -/
def okResolver : Resolver := fun p => .ok p

/-- Resolver on which `notes.txt` is a symlink to a safe absolute
target, and everything else resolves to itself. -/
def linkResolver : Resolver := fun p =>
  if p = str "notes.txt" then .ok (str "/home/u/notes.txt") else .ok p

/-- Resolver on which resolution always raises. -/
def errResolver : Resolver := fun _ => .error (str "boom")

/-- Resolver on which the current directory resolves to `/root/.aws`,
and everything else resolves to itself. -/
def cwdAwsResolver : Resolver := fun p =>
  if p = str "." then .ok (str "/root/.aws") else .ok p

/-! ## C1 -/

/-- C1 counterexample: a Read of `notes.txt` (a symlink to the safe
target `/home/u/notes.txt`) is allowed, yet a `SYMLINK_BYPASS_ATTEMPT`
audit event is written — the code emits the event whenever the
normalised and resolved forms differ, before classifying either. -/
theorem c1_counterexample :
    (check_file_access linkResolver
       ⟨str "Read", [(str "file_path", str "notes.txt")]⟩).1.1 = str "allow" ∧
    (check_file_access linkResolver
       ⟨str "Read", [(str "file_path", str "notes.txt")]⟩).2 =
      [AuditEvent.symlinkBypass (str "notes.txt") (str "/home/u/notes.txt")] := by
  constructor
  · decide
  · decide

/-- C1 (amended): when the final decision is Allow, no `HOOK_DENY`,
`SECRET_ACCESS_ATTEMPT`, `HOOK_TIMEOUT` or `HOOK_ERROR` event is
written — every event written on an allowed invocation is a
`SYMLINK_BYPASS_ATTEMPT` event (and such an event is written whenever
the normalised original and the resolved form of a candidate differ,
even when both forms are safe). -/
theorem c1_allow_writes_only_symlink_events (res : Resolver) (data : HookData)
    (rsn : Option S) (evs : List AuditEvent)
    (h : check_file_access res data = ((str "allow", rsn), evs)) :
    ∀ ev ∈ evs, ∃ o r, ev = AuditEvent.symlinkBypass o r := by
  unfold check_file_access at h
  split at h
  · cases h; simp
  · split at h
    · cases h; simp
    · split at h
      · cases h; simp
      · split at h
        · injection h with h1 h2
          injection h1 with hd hr
          exact absurd hd (by decide)
        · cases h
          exact classifyCandidate_events res data.tool_name _

/-- C1 witness: the amended theorem applied to the allowed symlinked
Read above and its one written event. -/
theorem c1_allow_writes_only_symlink_events_witness :
    ∃ o r, AuditEvent.symlinkBypass (str "notes.txt") (str "/home/u/notes.txt") =
      AuditEvent.symlinkBypass o r :=
  c1_allow_writes_only_symlink_events linkResolver
    ⟨str "Read", [(str "file_path", str "notes.txt")]⟩ none
    [AuditEvent.symlinkBypass (str "notes.txt") (str "/home/u/notes.txt")]
    (by decide)
    (AuditEvent.symlinkBypass (str "notes.txt") (str "/home/u/notes.txt"))
    (List.mem_singleton.mpr rfl)

/-! ## C3 -/

/-- C3: when filesystem resolution raises, classification does not
propagate the error: both classifier entry points return an affirmative
sensitivity match whose reason is the fail-closed "cannot resolve"
message, and no other outcome (and no audit event) is produced. -/
theorem c3_resolution_error_fails_closed (res : Resolver) (p e : S)
    (hp : p ≠ []) (hres : res p = .error e) :
    is_sensitive_file res p = ((true, some (cannotResolveReason p e)), []) ∧
    check_directory_for_sensitive_files res p =
      ((true, some (cannotResolveReason p e)), []) := by
  constructor
  · unfold is_sensitive_file
    rw [if_neg hp, hres]
  · unfold check_directory_for_sensitive_files
    rw [if_neg hp, hres]

/-- C3 witness: a concrete always-raising resolver. -/
theorem c3_resolution_error_fails_closed_witness :
    is_sensitive_file errResolver (str "/tmp/x") =
      ((true, some (cannotResolveReason (str "/tmp/x") (str "boom"))), []) ∧
    check_directory_for_sensitive_files errResolver (str "/tmp/x") =
      ((true, some (cannotResolveReason (str "/tmp/x") (str "boom"))), []) :=
  c3_resolution_error_fails_closed errResolver (str "/tmp/x") (str "boom")
    (by decide) rfl

/-! ## C8 -/

/-- C8: an invocation whose tool name is not Read, Write, Edit, Grep or
NotebookEdit is allowed with no candidate extraction, no reason and no
audit events, whatever `tool_input` holds. -/
theorem c8_ungated_tool_allowed (res : Resolver) (data : HookData)
    (h : ¬ (data.tool_name = str "Read" ∨ data.tool_name = str "Write" ∨
            data.tool_name = str "Edit" ∨ data.tool_name = str "Grep" ∨
            data.tool_name = str "NotebookEdit")) :
    check_file_access res data = ((str "allow", none), []) := by
  unfold check_file_access
  rw [if_pos h]

/-- C8 witness: the spec's Bash scenario. -/
theorem c8_ungated_tool_allowed_witness :
    check_file_access okResolver ⟨str "Bash", [(str "command", str "ls")]⟩ =
      ((str "allow", none), []) :=
  c8_ungated_tool_allowed okResolver
    ⟨str "Bash", [(str "command", str "ls")]⟩ (by decide)

/-! ## Lemmas: `normpath` preserves an ordinary final component -/

theorem splitSlash_ne_nil (s : S) : splitSlash s ≠ [] := by
  induction s with
  | nil => simp [splitSlash]
  | cons c rest ih =>
    simp only [splitSlash]
    split
    · simp
    · split
      · simp
      · simp

theorem splitSlash_no_slash (s : S) : ∀ l ∈ splitSlash s, '/' ∉ l := by
  induction s with
  | nil =>
    intro l hl
    simp only [splitSlash, List.mem_singleton] at hl
    subst hl
    simp
  | cons c rest ih =>
    intro l hl
    simp only [splitSlash] at hl
    by_cases hc : c = '/'
    · rw [if_pos hc] at hl
      rcases List.mem_cons.mp hl with h1 | h2
      · subst h1; simp
      · exact ih l h2
    · rw [if_neg hc] at hl
      rcases hr : splitSlash rest with _ | ⟨r, rs⟩
      · exact absurd hr (splitSlash_ne_nil rest)
      · rw [hr] at hl
        rcases List.mem_cons.mp hl with h1 | h2
        · subst h1
          intro hmem
          rcases List.mem_cons.mp hmem with h3 | h4
          · exact hc h3.symm
          · exact ih r (hr ▸ List.mem_cons_self r rs) h4
        · exact ih l (hr ▸ List.mem_cons_of_mem r h2)

theorem splitSlash_cons_slash (t : S) : splitSlash ('/' :: t) = [] :: splitSlash t := by
  simp [splitSlash]

theorem splitSlash_of_no_slash (a : S) (ha : '/' ∉ a) : splitSlash a = [a] := by
  induction a with
  | nil => rfl
  | cons c a' ih =>
    have hc : c ≠ '/' := fun h => ha (h ▸ List.mem_cons_self c a')
    simp only [splitSlash, if_neg hc]
    rw [ih (fun h => ha (List.mem_cons_of_mem c h))]

theorem splitSlash_append_slash (a t : S) (ha : '/' ∉ a) :
    splitSlash (a ++ '/' :: t) = a :: splitSlash t := by
  induction a with
  | nil => simp [splitSlash]
  | cons c a' ih =>
    have hc : c ≠ '/' := fun h => ha (h ▸ List.mem_cons_self c a')
    simp only [List.cons_append, splitSlash, if_neg hc]
    rw [List.append_eq, ih (fun h => ha (List.mem_cons_of_mem c h))]

theorem getLastD_default_irrel (l : List S) (h : l ≠ []) (a b : S) :
    l.getLastD a = l.getLastD b := by
  rcases List.exists_cons_of_ne_nil h with ⟨c, t, rfl⟩
  rw [List.getLastD_cons, List.getLastD_cons]

theorem joinSlash_getLast (L : List S) (hL : L ≠ []) (hs : ∀ l ∈ L, '/' ∉ l) :
    (splitSlash (joinSlash L)).getLastD [] = L.getLastD [] := by
  induction L with
  | nil => exact absurd rfl hL
  | cons x xs ih =>
    cases xs with
    | nil =>
      have hx : '/' ∉ x := hs x (List.mem_cons_self x [])
      simp [joinSlash, splitSlash_of_no_slash x hx]
    | cons y ys =>
      have hx : '/' ∉ x := hs x (List.mem_cons_self x (y :: ys))
      have hrest : ∀ l ∈ y :: ys, '/' ∉ l :=
        fun l hl => hs l (List.mem_cons_of_mem x hl)
      have hne := splitSlash_ne_nil (joinSlash (y :: ys))
      calc (splitSlash (joinSlash (x :: y :: ys))).getLastD []
          = (x :: splitSlash (joinSlash (y :: ys))).getLastD [] := by
            show (splitSlash (x ++ '/' :: joinSlash (y :: ys))).getLastD [] = _
            rw [splitSlash_append_slash x _ hx]
        _ = (splitSlash (joinSlash (y :: ys))).getLastD x := List.getLastD_cons [] x _
        _ = (splitSlash (joinSlash (y :: ys))).getLastD [] :=
            getLastD_default_irrel _ hne x []
        _ = (y :: ys).getLastD [] := ih (List.cons_ne_nil y ys) hrest
        _ = (y :: ys).getLastD x := getLastD_default_irrel _ (List.cons_ne_nil y ys) [] x
        _ = (x :: y :: ys).getLastD [] := (List.getLastD_cons [] x (y :: ys)).symm

theorem splitSlash_replicate_getLast (n : Nat) (t : S) :
    (splitSlash (List.replicate n '/' ++ t)).getLastD [] =
      (splitSlash t).getLastD [] := by
  induction n with
  | zero => rfl
  | succ m ih =>
    rw [List.replicate_succ, List.cons_append, splitSlash_cons_slash]
    rw [List.getLastD_cons]
    exact ih

theorem npStep_ordinary (i : Nat) (acc : List S) (C : S)
    (h1 : C ≠ []) (h2 : C ≠ str ".") (h3 : C ≠ str "..") :
    npStep i acc C = acc ++ [C] := by
  unfold npStep
  rw [if_neg (by simp [h1, h2]), if_pos (Or.inl h3)]

theorem npStep_subset (i : Nat) (acc : List S) (C : S) :
    ∀ l ∈ npStep i acc C, l ∈ acc ∨ l = C := by
  intro l hl
  unfold npStep at hl
  split at hl
  · exact Or.inl hl
  · split at hl
    · rcases List.mem_append.mp hl with h | h
      · exact Or.inl h
      · exact Or.inr (List.mem_singleton.mp h)
    · exact Or.inl ((List.dropLast_sublist acc).subset hl)

theorem npFold_subset (i : Nat) (comps : List S) :
    ∀ acc l, l ∈ comps.foldl (npStep i) acc → l ∈ acc ∨ l ∈ comps := by
  induction comps with
  | nil => intro acc l h; exact Or.inl h
  | cons x xs ih =>
    intro acc l h
    rw [List.foldl_cons] at h
    rcases ih (npStep i acc x) l h with h' | h'
    · rcases npStep_subset i acc x l h' with h'' | h''
      · exact Or.inl h''
      · exact Or.inr (h'' ▸ List.mem_cons_self x xs)
    · exact Or.inr (List.mem_cons_of_mem x h')

theorem joinSlash_concat_ne_nil (xs : List S) (C : S) (hC : C ≠ []) :
    joinSlash (xs ++ [C]) ≠ [] := by
  cases xs with
  | nil => simpa [joinSlash] using hC
  | cons x xs' =>
    cases h : xs' ++ [C] with
    | nil => exact absurd h (by simp)
    | cons y ys =>
      rw [List.cons_append, h]
      show x ++ '/' :: joinSlash (y :: ys) ≠ []
      simp

/-- The key `normpath` fact: an ordinary final component (not empty,
not `.`, not `..`) survives normalisation as the basename. -/
theorem basename_normpathS (p : S)
    (h1 : basenameS p ≠ []) (h2 : basenameS p ≠ str ".")
    (h3 : basenameS p ≠ str "..") :
    basenameS (normpathS p) = basenameS p := by
  have hp : p ≠ [] := by
    intro hnil
    apply h1
    subst hnil
    rfl
  rcases List.eq_nil_or_concat (splitSlash p) with hsplit | ⟨front, C, hsplit⟩
  · exact absurd hsplit (splitSlash_ne_nil p)
  · rw [List.concat_eq_append] at hsplit
    have hbase : basenameS p = C := by
      rw [basenameS, hsplit, List.getLastD_concat]
    have hC1 : C ≠ [] := hbase ▸ h1
    have hC2 : C ≠ str "." := hbase ▸ h2
    have hC3 : C ≠ str ".." := hbase ▸ h3
    set i := npInitSlashes p with hi
    have hfold : (splitSlash p).foldl (npStep i) [] =
        (front.foldl (npStep i) []) ++ [C] := by
      rw [hsplit, List.foldl_append, List.foldl_cons, List.foldl_nil]
      exact npStep_ordinary i _ C hC1 hC2 hC3
    have hmemC : C ∈ splitSlash p := by
      rw [hsplit]; exact List.mem_append.mpr (Or.inr (List.mem_singleton.mpr rfl))
    have hnoslash : ∀ l ∈ (front.foldl (npStep i) []) ++ [C], '/' ∉ l := by
      intro l hl
      rcases List.mem_append.mp hl with h | h
      · rcases npFold_subset i front [] l h with h' | h'
        · simp at h'
        · exact splitSlash_no_slash p l (hsplit ▸ List.mem_append.mpr (Or.inl h'))
      · rw [List.mem_singleton.mp h]
        exact splitSlash_no_slash p C hmemC
    have hjoin_ne := joinSlash_concat_ne_nil (front.foldl (npStep i) []) C hC1
    have hjoined_ne : List.replicate i '/' ++
        joinSlash ((front.foldl (npStep i) []) ++ [C]) ≠ [] := by
      intro hnil
      exact hjoin_ne (List.append_eq_nil.mp hnil).2
    rw [normpathS, if_neg hp]
    simp only [← hi, hfold]
    rw [if_neg hjoined_ne]
    rw [basenameS, splitSlash_replicate_getLast]
    rw [joinSlash_getLast _ (by simp) hnoslash]
    rw [List.getLastD_concat]
    exact hbase.symm

/-! ## Lemmas: the exact-filename tier fires first -/

theorem classifyOne_exact_isSome (path t : S)
    (h : lowerS (basenameS path) ∈ SENSITIVE_FILENAMES) :
    (classifyOne path t).isSome = true := by
  simp [classifyOne, h]

theorem classifyPaths_head_sensitive (p t : S) (rest : List (S × S))
    (h : (classifyOne p t).isSome = true) :
    (classifyPaths ((p, t) :: rest)).1 = true := by
  unfold classifyPaths
  cases hx : classifyOne p t with
  | none => rw [hx] at h; simp at h
  | some r => rfl

/-- Shared core of the exact-filename claims: when the lower-cased
basename of the input is one of `SENSITIVE_FILENAMES`, `is_sensitive_file`
reports sensitive for every resolver. -/
theorem is_sensitive_file_of_exact_basename (res : Resolver) (p : S)
    (h : lowerS (basenameS p) ∈ SENSITIVE_FILENAMES) :
    (is_sensitive_file res p).1.1 = true := by
  have h1 : basenameS p ≠ [] := by
    intro he; rw [he] at h; exact absurd h (by decide)
  have h2 : basenameS p ≠ str "." := by
    intro he; rw [he] at h; exact absurd h (by decide)
  have h3 : basenameS p ≠ str ".." := by
    intro he; rw [he] at h; exact absurd h (by decide)
  have hp : p ≠ [] := by
    intro he; apply h1; rw [he]; rfl
  have hb := basename_normpathS p h1 h2 h3
  have hmem : lowerS (basenameS (normpathS p)) ∈ SENSITIVE_FILENAMES := by
    rw [hb]; exact h
  unfold is_sensitive_file
  rw [if_neg hp]
  split
  · rfl
  · split
    · exact classifyPaths_head_sensitive (normpathS p) (str "original path") _
        (classifyOne_exact_isSome _ _ hmem)
    · exact classifyPaths_head_sensitive (normpathS p) (str "path") _
        (classifyOne_exact_isSome _ _ hmem)

/-! ## C4 -/

/-- C4: for every path whose basename, compared case-insensitively
(ASCII), equals one of the configured exact sensitive filenames,
classification returns Sensitive, regardless of input case and of any
leading directory components (and of what the resolver does). -/
theorem c4_exact_filename_blocked (res : Resolver) (p : S)
    (h : lowerS (basenameS p) ∈ SENSITIVE_FILENAMES) :
    (is_sensitive_file res p).1.1 = true :=
  is_sensitive_file_of_exact_basename res p h

/-- C4 witness: an upper-cased `.ENV` under leading directories. -/
theorem c4_exact_filename_blocked_witness :
    (is_sensitive_file okResolver (str "/Home/User/.ENV")).1.1 = true :=
  c4_exact_filename_blocked okResolver (str "/Home/User/.ENV") (by decide)

/-! ## C9 -/

/-- C9: every path whose basename lower-cases to `config.json` — in any
directory, not only under `.docker/` — is classified sensitive (it is a
member of the exact-filename set), and a Read of it is blocked. -/
theorem c9_config_json_blocked_anywhere (res : Resolver) (p : S)
    (h : lowerS (basenameS p) = str "config.json") :
    (is_sensitive_file res p).1.1 = true ∧
    (check_file_access res ⟨str "Read", [(str "file_path", p)]⟩).1.1 = str "block" := by
  have hmem : lowerS (basenameS p) ∈ SENSITIVE_FILENAMES := by
    rw [h]; decide
  have hsens := is_sensitive_file_of_exact_basename res p hmem
  refine ⟨hsens, ?_⟩
  have hp : p ≠ [] := by
    intro he; rw [he] at h; exact absurd h (by decide)
  have hextract : extract_path_from_tool (str "Read") [(str "file_path", p)] =
      some p := rfl
  have hcc : classifyCandidate res (str "Read") p = is_sensitive_file res p := rfl
  unfold check_file_access
  rw [if_neg (not_not_intro (Or.inl rfl))]
  simp only [hextract]
  rw [if_neg hp]
  rw [if_pos (by rw [hcc]; exact hsens)]

/-- C9 witness: `config.json` in an ordinary project directory. -/
theorem c9_config_json_blocked_anywhere_witness :
    (is_sensitive_file okResolver (str "/home/u/project/config.json")).1.1 = true ∧
    (check_file_access okResolver
      ⟨str "Read", [(str "file_path", str "/home/u/project/config.json")]⟩).1.1 =
      str "block" :=
  c9_config_json_blocked_anywhere okResolver (str "/home/u/project/config.json")
    (by decide)

/-! ## C5 -/

/-- C5 counterexample: a Grep invocation with no parameters at all does
not yield zero candidates — the candidate `"."` is extracted — and the
decision is not allow-by-default: when the current directory resolves to
`/root/.aws`, the invocation is blocked. -/
theorem c5_counterexample :
    extract_path_from_tool (str "Grep") [] = some (str ".") ∧
    (check_file_access cwdAwsResolver ⟨str "Grep", []⟩).1.1 = str "block" := by
  constructor
  · rfl
  · decide

/-- C5 (amended): for Read, Write, Edit and NotebookEdit a missing or
empty path parameter yields an allow decision with no audit events; for
Grep, missing or empty `path` and `glob` parameters yield the single
candidate `"."`, which is checked as a directory, so the decision
follows the classification of the resolved current directory instead of
being allow by default. -/
theorem c5_empty_params_decision (res : Resolver) (ti : ToolInput) :
    (getParam ti (str "file_path") = [] →
       check_file_access res ⟨str "Read", ti⟩ = ((str "allow", none), []) ∧
       check_file_access res ⟨str "Write", ti⟩ = ((str "allow", none), []) ∧
       check_file_access res ⟨str "Edit", ti⟩ = ((str "allow", none), [])) ∧
    (getParam ti (str "notebook_path") = [] →
       check_file_access res ⟨str "NotebookEdit", ti⟩ = ((str "allow", none), [])) ∧
    (getParam ti (str "path") = [] → getParam ti (str "glob") = [] →
       extract_path_from_tool (str "Grep") ti = some (str ".") ∧
       (check_file_access res ⟨str "Grep", ti⟩).1.1 =
         (if (check_directory_for_sensitive_files res (str ".")).1.1
          then str "block" else str "allow")) := by
  refine ⟨?_, ?_, ?_⟩
  · intro hfp
    have he : extract_path_from_tool (str "Read") ti = some [] := by
      have : extract_path_from_tool (str "Read") ti =
          some (getParam ti (str "file_path")) := rfl
      rw [this, hfp]
    have he2 : extract_path_from_tool (str "Write") ti = some [] := by
      have : extract_path_from_tool (str "Write") ti =
          some (getParam ti (str "file_path")) := rfl
      rw [this, hfp]
    have he3 : extract_path_from_tool (str "Edit") ti = some [] := by
      have : extract_path_from_tool (str "Edit") ti =
          some (getParam ti (str "file_path")) := rfl
      rw [this, hfp]
    refine ⟨?_, ?_, ?_⟩ <;>
      [(unfold check_file_access
        rw [if_neg (not_not_intro (Or.inl rfl))]
        simp only [he]
        rfl);
       (unfold check_file_access
        rw [if_neg (not_not_intro (Or.inr (Or.inl rfl)))]
        simp only [he2]
        rfl);
       (unfold check_file_access
        rw [if_neg (not_not_intro (Or.inr (Or.inr (Or.inl rfl))))]
        simp only [he3]
        rfl)]
  · intro hnp
    have he : extract_path_from_tool (str "NotebookEdit") ti = some [] := by
      have : extract_path_from_tool (str "NotebookEdit") ti =
          some (getParam ti (str "notebook_path")) := rfl
      rw [this, hnp]
    unfold check_file_access
    rw [if_neg (not_not_intro (Or.inr (Or.inr (Or.inr (Or.inr rfl)))))]
    simp only [he]
    rfl
  · intro hpath hglob
    have he : extract_path_from_tool (str "Grep") ti = some (str ".") := by
      have h0 : extract_path_from_tool (str "Grep") ti =
          (if getParam ti (str "glob") ≠ [] ∧
              globIsSuspicious (getParam ti (str "glob")) then
             some (getParam ti (str "glob"))
           else some (if getParam ti (str "path") ≠ []
                      then getParam ti (str "path") else str ".")) := rfl
      rw [h0, hglob, hpath]
      simp
    refine ⟨he, ?_⟩
    have hcc : classifyCandidate res (str "Grep") (str ".") =
        check_directory_for_sensitive_files res (str ".") := rfl
    unfold check_file_access
    rw [if_neg (not_not_intro (Or.inr (Or.inr (Or.inr (Or.inl rfl)))))]
    simp only [he]
    rw [if_neg (by decide)]
    rw [hcc]
    split
    · rfl
    · rfl

/-- C5 witness: the amended theorem applied at empty tool input, with a
current directory that resolves to `/root/.aws`. -/
theorem c5_empty_params_decision_witness :
    check_file_access cwdAwsResolver ⟨str "NotebookEdit", []⟩ =
      ((str "allow", none), []) ∧
    (check_file_access cwdAwsResolver ⟨str "Grep", []⟩).1.1 =
      (if (check_directory_for_sensitive_files cwdAwsResolver (str ".")).1.1
       then str "block" else str "allow") :=
  ⟨(c5_empty_params_decision cwdAwsResolver []).2.1 rfl,
   ((c5_empty_params_decision cwdAwsResolver []).2.2 rfl rfl).2⟩

/-! ## C2 -/

/-- C2 counterexample: for the Grep invocation with
`path = "/home/u/.aws"` (a sensitive directory) and
`glob = "monkey*.txt"` (which contains the fixed substring `key`),
the code checks only the glob — which is safe — and allows, although the
independent two-candidate evaluation the claim describes finds the path
parameter sensitive. -/
theorem c2_counterexample :
    (check_file_access okResolver ⟨str "Grep",
       [(str "path", str "/home/u/.aws"),
        (str "glob", str "monkey*.txt")]⟩).1.1 = str "allow" ∧
    check_grep_spec okResolver
       [(str "path", str "/home/u/.aws"),
        (str "glob", str "monkey*.txt")] = true := by
  constructor
  · decide
  · decide

/-- C2 (amended): for every Grep invocation exactly one candidate is
checked.  When the glob parameter is nonempty and contains one of the
fixed sensitive substrings, the glob string replaces the path parameter
as the single candidate, and it is checked through the same
filesystem-resolving directory classification as any path — resolution
is not skipped, so an unresolvable glob fails closed.  Otherwise the
single candidate is the path parameter, defaulting to `"."` when
empty. -/
theorem c2_grep_single_candidate (res : Resolver) (ti : ToolInput) :
    (getParam ti (str "glob") ≠ [] →
     globIsSuspicious (getParam ti (str "glob")) = true →
       extract_path_from_tool (str "Grep") ti = some (getParam ti (str "glob")) ∧
       (check_file_access res ⟨str "Grep", ti⟩).1.1 =
         (if (check_directory_for_sensitive_files res
                (getParam ti (str "glob"))).1.1
          then str "block" else str "allow")) ∧
    (globIsSuspicious (getParam ti (str "glob")) = false →
       extract_path_from_tool (str "Grep") ti =
         some (if getParam ti (str "path") ≠ []
               then getParam ti (str "path") else str ".")) ∧
    (∀ e, getParam ti (str "glob") ≠ [] →
       globIsSuspicious (getParam ti (str "glob")) = true →
       res (getParam ti (str "glob")) = .error e →
       (check_file_access res ⟨str "Grep", ti⟩).1.1 = str "block") := by
  have h0 : extract_path_from_tool (str "Grep") ti =
      (if getParam ti (str "glob") ≠ [] ∧
          globIsSuspicious (getParam ti (str "glob")) then
         some (getParam ti (str "glob"))
       else some (if getParam ti (str "path") ≠ []
                  then getParam ti (str "path") else str ".")) := rfl
  refine ⟨?_, ?_, ?_⟩
  · intro hne hsusp
    have he : extract_path_from_tool (str "Grep") ti =
        some (getParam ti (str "glob")) := by
      rw [h0, if_pos ⟨hne, hsusp⟩]
    refine ⟨he, ?_⟩
    have hcc : classifyCandidate res (str "Grep") (getParam ti (str "glob")) =
        check_directory_for_sensitive_files res (getParam ti (str "glob")) := rfl
    unfold check_file_access
    rw [if_neg (not_not_intro (Or.inr (Or.inr (Or.inr (Or.inl rfl)))))]
    simp only [he]
    rw [if_neg hne, hcc]
    split
    · rfl
    · rfl
  · intro hsusp
    rw [h0, if_neg (by simp [hsusp])]
  · intro e hne hsusp hres
    have he : extract_path_from_tool (str "Grep") ti =
        some (getParam ti (str "glob")) := by
      rw [h0, if_pos ⟨hne, hsusp⟩]
    have hdir : (check_directory_for_sensitive_files res
        (getParam ti (str "glob"))).1.1 = true := by
      unfold check_directory_for_sensitive_files
      rw [if_neg hne, hres]
    have hcc : classifyCandidate res (str "Grep") (getParam ti (str "glob")) =
        check_directory_for_sensitive_files res (getParam ti (str "glob")) := rfl
    unfold check_file_access
    rw [if_neg (not_not_intro (Or.inr (Or.inr (Or.inr (Or.inl rfl)))))]
    simp only [he]
    rw [if_neg hne]
    rw [if_pos (by rw [hcc, hdir])]

/-- C2 witness: the spec's own Grep scenario (`path="."`,
`glob="**/.env"`), where the glob is the single candidate checked. -/
theorem c2_grep_single_candidate_witness :
    extract_path_from_tool (str "Grep")
      [(str "path", str "."), (str "glob", str "**/.env")] =
      some (str "**/.env") ∧
    (check_file_access okResolver ⟨str "Grep",
      [(str "path", str "."), (str "glob", str "**/.env")]⟩).1.1 =
      (if (check_directory_for_sensitive_files okResolver (str "**/.env")).1.1
       then str "block" else str "allow") :=
  (c2_grep_single_candidate okResolver
    [(str "path", str "."), (str "glob", str "**/.env")]).1
    (by decide) (by decide)

/-! ## Lemmas for the audit-logger sanitization claim (C6) -/

theorem csiTail_sublist {l l' : S} (h : csiTail l = some l') : l'.Sublist l := by
  induction l generalizing l' with
  | nil => simp [csiTail] at h
  | cons c rest ih =>
    simp only [csiTail] at h
    split at h
    · exact (ih h).trans (List.sublist_cons_self c rest)
    · split at h
      · cases h
        exact List.sublist_cons_self c rest
      · cases h

theorem tryCSI_sublist {l l' : S} (h : tryCSI l = some l') : l'.Sublist l := by
  match l with
  | [] => simp [tryCSI] at h
  | c :: rest =>
    simp only [tryCSI] at h
    split at h
    · exact (csiTail_sublist h).trans (List.sublist_cons_self c rest)
    · cases h

theorem mem_ansiStrip (l : S) : ∀ c ∈ ansiStrip l, c ∈ l := by
  induction l using ansiStrip.induct with
  | case1 => intro c hc; simp [ansiStrip] at hc
  | case2 rest rest' hcsi ih =>
    intro c hc
    rw [ansiStrip, if_pos rfl] at hc
    split at hc
    case _ r2 heq =>
      rw [hcsi] at heq
      injection heq with h2
      subst h2
      exact List.mem_cons_of_mem _ ((tryCSI_sublist hcsi).subset (ih c hc))
    case _ heq =>
      rw [hcsi] at heq
      cases heq
  | case3 rest hcsi ih =>
    intro c hc
    rw [ansiStrip, if_pos rfl] at hc
    split at hc
    case _ r2 heq =>
      rw [hcsi] at heq
      cases heq
    case _ heq =>
      rcases List.mem_cons.mp hc with h | h
      · exact h ▸ List.mem_cons_self _ rest
      · exact List.mem_cons_of_mem _ (ih c h)
  | case4 c0 rest hx ih =>
    intro c hc
    rw [ansiStrip, if_neg hx] at hc
    rcases List.mem_cons.mp hc with h | h
    · exact h ▸ List.mem_cons_self c0 rest
    · exact List.mem_cons_of_mem c0 (ih c h)

theorem mem_replace1 (t : Char) (r l : S) :
    ∀ c ∈ replace1 t r l, c ∈ r ∨ (c ∈ l ∧ c ≠ t) := by
  induction l with
  | nil => intro c hc; simp [replace1] at hc
  | cons x xs ih =>
    intro c hc
    simp only [replace1] at hc
    by_cases hx : x = t
    · rw [if_pos hx] at hc
      rcases List.mem_append.mp hc with h | h
      · exact Or.inl h
      · rcases ih c h with h' | ⟨h1, h2⟩
        · exact Or.inl h'
        · exact Or.inr ⟨List.mem_cons_of_mem x h1, h2⟩
    · rw [if_neg hx] at hc
      rcases List.mem_cons.mp hc with h | h
      · subst h
        exact Or.inr ⟨List.mem_cons_self c xs, hx⟩
      · rcases ih c h with h' | ⟨h1, h2⟩
        · exact Or.inl h'
        · exact Or.inr ⟨List.mem_cons_of_mem x h1, h2⟩

theorem char_eq_of_toNat_eq {a b : Char} (h : a.toNat = b.toNat) : a = b := by
  apply Char.ext
  apply UInt32.ext
  exact h

/-- `ctrlFree l`: no raw control byte (0x00–0x1f, 0x7f) occurs in `l`. -/
abbrev ctrlFree (l : S) : Prop := ∀ c ∈ l, isCtrl c = false

/-- The output of `sanitize_log_value` never contains a raw control
byte: newline, carriage return and tab are escaped away, and every other
control character (ANSI introducers included) is removed. -/
theorem sanitize_log_value_ctrlFree (v : S) : ctrlFree (sanitize_log_value v) := by
  intro c hc
  simp only [sanitize_log_value] at hc
  rw [List.mem_filter] at hc
  obtain ⟨hmem, hkeep⟩ := hc
  have hnotrem : isCtrlRemoved c = false := by
    rwa [Bool.not_eq_true'] at hkeep
  rcases mem_replace1 _ _ _ c hmem with h | ⟨hmem, hq⟩
  · simp only [str, List.mem_cons, List.not_mem_nil, or_false] at h
    rcases h with rfl | rfl <;> rfl
  rcases mem_replace1 _ _ _ c hmem with h | ⟨hmem, hpipe⟩
  · simp only [str, List.mem_cons, List.not_mem_nil, or_false] at h
    rcases h with rfl | rfl <;> rfl
  rcases mem_replace1 _ _ _ c hmem with h | ⟨hmem, htab⟩
  · simp only [str, List.mem_cons, List.not_mem_nil, or_false] at h
    rcases h with rfl | rfl <;> rfl
  rcases mem_replace1 _ _ _ c hmem with h | ⟨hmem, hcr⟩
  · simp only [str, List.mem_cons, List.not_mem_nil, or_false] at h
    rcases h with rfl | rfl <;> rfl
  rcases mem_replace1 _ _ _ c hmem with h | ⟨hmem, hnl⟩
  · simp only [str, List.mem_cons, List.not_mem_nil, or_false] at h
    rcases h with rfl | rfl <;> rfl
  rcases mem_replace1 _ _ _ c hmem with h | ⟨hmem, hbs⟩
  · simp only [str, List.mem_cons, List.not_mem_nil, or_false] at h
    rcases h with rfl | rfl <;> rfl
  by_contra hctrl
  rw [Bool.not_eq_false] at hctrl
  have h9 : c.toNat = 9 ∨ c.toNat = 10 ∨ c.toNat = 13 := by
    simp only [isCtrl, Bool.or_eq_true, decide_eq_true_eq, beq_iff_eq] at hctrl
    simp only [isCtrlRemoved, Bool.or_eq_false_iff, Bool.and_eq_false_iff,
      decide_eq_false_iff_not, beq_eq_false_iff_ne, ne_eq, not_le, not_lt] at hnotrem
    omega
  rcases h9 with h | h | h
  · exact htab (char_eq_of_toNat_eq h)
  · exact hnl (char_eq_of_toNat_eq h)
  · exact hcr (char_eq_of_toNat_eq h)

theorem ctrlFree_append {a b : S} (ha : ctrlFree a) (hb : ctrlFree b) :
    ctrlFree (a ++ b) := by
  intro c hc
  rcases List.mem_append.mp hc with h | h
  · exact ha c h
  · exact hb c h

theorem ctrlFree_str_lit (s : String) (h : ∀ c ∈ s.data, isCtrl c = false) :
    ctrlFree (str s) := h

theorem filter_isCtrl_nil {l : S} (h : ctrlFree l) : l.filter isCtrl = [] := by
  rw [List.filter_eq_nil_iff]
  intro c hc
  rw [h c hc]
  simp

/-- The only control character of a `log_security_event` line is its
terminating newline, provided the timestamp and the details string are
control-free. -/
theorem log_entry_line_filter (ts severity event worker details : S)
    (hts : ctrlFree ts) (hd : ctrlFree details) :
    (log_entry_line ts severity event worker details).filter isCtrl = str "\n" := by
  unfold log_entry_line
  have h1 : ctrlFree (ts ++ str " | " ++ sanitize_log_value severity ++ str " | " ++
      sanitize_log_value event ++ str " | worker=" ++ sanitize_log_value worker ++
      str " " ++ details) := by
    refine ctrlFree_append (ctrlFree_append (ctrlFree_append (ctrlFree_append
      (ctrlFree_append (ctrlFree_append (ctrlFree_append (ctrlFree_append
        hts ?_) (sanitize_log_value_ctrlFree _)) ?_) (sanitize_log_value_ctrlFree _))
        ?_) (sanitize_log_value_ctrlFree _)) ?_) hd
    · decide
    · decide
    · decide
    · decide
  rw [List.filter_append, filter_isCtrl_nil h1]
  rfl

theorem digitChar_not_ctrl (d : Nat) : isCtrl (Nat.digitChar d) = false := by
  match d with
  | 0 => rfl
  | 1 => rfl
  | 2 => rfl
  | 3 => rfl
  | 4 => rfl
  | 5 => rfl
  | 6 => rfl
  | 7 => rfl
  | 8 => rfl
  | 9 => rfl
  | 10 => rfl
  | 11 => rfl
  | 12 => rfl
  | 13 => rfl
  | 14 => rfl
  | 15 => rfl
  | n + 16 => rfl

theorem toDigitsCore_mem (b : Nat) :
    ∀ (fuel n : Nat) (ds : List Char), ∀ c ∈ Nat.toDigitsCore b fuel n ds,
      c ∈ ds ∨ ∃ d, c = Nat.digitChar d := by
  intro fuel
  induction fuel with
  | zero => intro n ds c hc; exact Or.inl hc
  | succ f ih =>
    intro n ds c hc
    rw [Nat.toDigitsCore] at hc
    split at hc
    · rcases List.mem_cons.mp hc with h | h
      · exact Or.inr ⟨n % b, h⟩
      · exact Or.inl h
    · rcases ih (n / b) (Nat.digitChar (n % b) :: ds) c hc with h | h
      · rcases List.mem_cons.mp h with h' | h'
        · exact Or.inr ⟨n % b, h'⟩
        · exact Or.inl h'
      · exact Or.inr h

/-- The decimal rendering of a natural number (Python `f"{n}"`) is
control-free. -/
theorem natRepr_ctrlFree (n : Nat) : ctrlFree (Nat.repr n).data := by
  intro c hc
  have hc' : c ∈ Nat.toDigits 10 n := hc
  unfold Nat.toDigits at hc'
  rcases toDigitsCore_mem 10 (n + 1) n [] c hc' with h | ⟨d, rfl⟩
  · simp at h
  · exact digitChar_not_ctrl d

theorem joinSpace_ctrlFree (parts : List S)
    (h : ∀ p ∈ parts, ctrlFree p) : ctrlFree (joinSpace parts) := by
  induction parts with
  | nil => intro c hc; simp [joinSpace] at hc
  | cons x xs ih =>
    cases xs with
    | nil =>
      intro c hc
      exact h x (List.mem_cons_self x []) c hc
    | cons y ys =>
      intro c hc
      rw [show joinSpace (x :: y :: ys) = x ++ ' ' :: joinSpace (y :: ys) from rfl] at hc
      rcases List.mem_append.mp hc with h1 | h1
      · exact h x (List.mem_cons_self x (y :: ys)) c h1
      · rcases List.mem_cons.mp h1 with h2 | h2
        · subst h2; rfl
        · exact ih (fun p hp => h p (List.mem_cons_of_mem x hp)) c h2

theorem hook_deny_details_ctrlFree (tool : S) (filePath : Option S) (reason : S) :
    ctrlFree (hook_deny_details tool filePath reason) := by
  apply joinSpace_ctrlFree
  intro p hp
  unfold hook_deny_details at hp
  rcases List.mem_append.mp hp with h1 | h1
  · rcases List.mem_append.mp h1 with h2 | h2
    · rw [List.mem_singleton.mp h2]
      exact ctrlFree_append (by decide) (sanitize_log_value_ctrlFree _)
    · split at h2
      · split at h2
        · simp at h2
        · rw [List.mem_singleton.mp h2]
          exact ctrlFree_append
            (ctrlFree_append (by decide) (sanitize_log_value_ctrlFree _)) (by decide)
      · simp at h2
  · split at h1
    · simp at h1
    · rw [List.mem_singleton.mp h1]
      exact ctrlFree_append
        (ctrlFree_append (by decide) (sanitize_log_value_ctrlFree _)) (by decide)

/-! ## C6 -/

/-- C6: every audit line written through the event-specific logging
functions is exactly one logical entry: all string fields are sanitized
before formatting, so the only control character in the persisted line
is its terminating newline (in particular no embedded newline, carriage
return, tab, ANSI escape or other raw control byte survives), whatever
the attacker-controlled field values contain.  The timestamp is
generated by `strftime` and assumed control-free. -/
theorem c6_audit_lines_single_entry
    (ts worker tool fp reason err orig resolved acttype dets cmd : S)
    (n : Nat) (hts : ctrlFree ts) :
    (audit_hook_deny_line ts worker tool (some fp) reason).filter isCtrl = str "\n" ∧
    (audit_hook_timeout_line ts worker tool n).filter isCtrl = str "\n" ∧
    (audit_hook_error_line ts worker tool err).filter isCtrl = str "\n" ∧
    (audit_secret_access_line ts worker tool fp).filter isCtrl = str "\n" ∧
    (audit_suspicious_activity_line ts worker acttype dets).filter isCtrl = str "\n" ∧
    (audit_symlink_bypass_line ts worker orig resolved).filter isCtrl = str "\n" ∧
    (audit_command_blocked_line ts worker cmd reason).filter isCtrl = str "\n" := by
  refine ⟨?_, ?_, ?_, ?_, ?_, ?_, ?_⟩
  · exact log_entry_line_filter _ _ _ _ _ hts
      (hook_deny_details_ctrlFree tool (some fp) reason)
  · exact log_entry_line_filter _ _ _ _ _ hts
      (ctrlFree_append (ctrlFree_append (ctrlFree_append (ctrlFree_append
        (by decide) (sanitize_log_value_ctrlFree _)) (by decide))
        (natRepr_ctrlFree n)) (by decide))
  · exact log_entry_line_filter _ _ _ _ _ hts
      (ctrlFree_append (ctrlFree_append (ctrlFree_append (ctrlFree_append
        (by decide) (sanitize_log_value_ctrlFree _)) (by decide))
        (sanitize_log_value_ctrlFree _)) (by decide))
  · exact log_entry_line_filter _ _ _ _ _ hts
      (ctrlFree_append (ctrlFree_append (ctrlFree_append (ctrlFree_append
        (by decide) (sanitize_log_value_ctrlFree _)) (by decide))
        (sanitize_log_value_ctrlFree _)) (by decide))
  · exact log_entry_line_filter _ _ _ _ _ hts
      (ctrlFree_append (ctrlFree_append (ctrlFree_append (ctrlFree_append
        (by decide) (sanitize_log_value_ctrlFree _)) (by decide))
        (sanitize_log_value_ctrlFree _)) (by decide))
  · exact log_entry_line_filter _ _ _ _ _ hts
      (ctrlFree_append (ctrlFree_append (ctrlFree_append (ctrlFree_append
        (by decide) (sanitize_log_value_ctrlFree _)) (by decide))
        (sanitize_log_value_ctrlFree _)) (by decide))
  · exact log_entry_line_filter _ _ _ _ _ hts
      (ctrlFree_append (ctrlFree_append (ctrlFree_append (ctrlFree_append
        (by decide) (sanitize_log_value_ctrlFree _)) (by decide))
        (sanitize_log_value_ctrlFree _)) (by decide))

/-- C6 witness: concrete hostile field values carrying a newline, an
ANSI colour sequence, pipes and quotes. -/
theorem c6_audit_lines_single_entry_witness :
    (audit_hook_deny_line (str "2026-01-31T12:00:00Z") (str "w1") (str "Read")
      (some (str "/home/u/.env")) (str "bad\n\x1b[31m|x\"y\"")).filter isCtrl =
        str "\n" ∧
    (audit_hook_timeout_line (str "2026-01-31T12:00:00Z") (str "w1")
      (str "Read") 10).filter isCtrl = str "\n" ∧
    (audit_hook_error_line (str "2026-01-31T12:00:00Z") (str "w1") (str "Read")
      (str "oops\r\nfake | ERROR | line")).filter isCtrl = str "\n" ∧
    (audit_secret_access_line (str "2026-01-31T12:00:00Z") (str "w1") (str "Read")
      (str "/home/u/.env")).filter isCtrl = str "\n" ∧
    (audit_suspicious_activity_line (str "2026-01-31T12:00:00Z") (str "w1")
      (str "probe") (str "a\tb")).filter isCtrl = str "\n" ∧
    (audit_symlink_bypass_line (str "2026-01-31T12:00:00Z") (str "w1")
      (str "notes.txt") (str "/home/u/.ssh/id_rsa")).filter isCtrl = str "\n" ∧
    (audit_command_blocked_line (str "2026-01-31T12:00:00Z") (str "w1")
      (str "cat /etc/passwd\nrm -rf") (str "bad\n\x1b[31m|x\"y\"")).filter isCtrl =
        str "\n" :=
  c6_audit_lines_single_entry (str "2026-01-31T12:00:00Z") (str "w1") (str "Read")
    (str "/home/u/.env") (str "bad\n\x1b[31m|x\"y\"")
    (str "oops\r\nfake | ERROR | line") (str "notes.txt") (str "/home/u/.ssh/id_rsa")
    (str "probe") (str "a\tb") (str "cat /etc/passwd\nrm -rf") 10 (by decide)

/-! ## Lemmas: log rotation (C7, C10) -/

theorem rotateStep_untouched (maxFiles : Nat) (fs : Fs) (i j : Nat)
    (hj : j ≠ i) (hj2 : i = maxFiles - 1 ∨ j ≠ i + 1) :
    rotateStep maxFiles fs i j = fs j := by
  cases hfi : fs i with
  | none =>
    simp only [rotateStep, hfi]
  | some content =>
    simp only [rotateStep, hfi]
    by_cases hc : i = maxFiles - 1
    · rw [if_pos hc]
      show (if j = i then none else fs j) = fs j
      rw [if_neg hj]
    · rw [if_neg hc]
      rcases hj2 with h | h
      · contradiction
      · show (if j = i then none else if j = i + 1 then some content else fs j) = fs j
        rw [if_neg hj, if_neg h]

theorem rotateLoop_untouched (maxFiles : Nat) (k j : Nat)
    (hj : j = 0 ∨ k + 2 ≤ j) :
    ∀ fs : Fs, rotateLoop maxFiles fs k j = fs j := by
  induction k with
  | zero => intro fs; rfl
  | succ k ih =>
    intro fs
    have hj' : j = 0 ∨ k + 2 ≤ j := by
      rcases hj with h | h
      · exact Or.inl h
      · exact Or.inr (by omega)
    show rotateLoop maxFiles (rotateStep maxFiles fs (k + 1)) k j = fs j
    rw [ih hj']
    apply rotateStep_untouched
    · rcases hj with h | h <;> omega
    · right
      rcases hj with h | h <;> omega

theorem rotateLoop_top_untouched (maxFiles : Nat) (k : Nat)
    (hk : k ≤ maxFiles - 1) (hm : 1 ≤ maxFiles) :
    ∀ fs : Fs, rotateLoop maxFiles fs k maxFiles = fs maxFiles := by
  induction k with
  | zero => intro fs; rfl
  | succ k ih =>
    intro fs
    show rotateLoop maxFiles (rotateStep maxFiles fs (k + 1)) k maxFiles =
      fs maxFiles
    rw [ih (by omega)]
    apply rotateStep_untouched
    · omega
    · by_cases h : k + 1 = maxFiles - 1
      · exact Or.inl h
      · right; omega

theorem rotateLoop_char (maxFiles : Nat) :
    ∀ (k : Nat) (fs : Fs), k + 1 ≤ maxFiles - 1 → fs (k + 1) = none →
      (∀ j, 2 ≤ j → j ≤ k + 1 → rotateLoop maxFiles fs k j = fs (j - 1)) ∧
      (1 ≤ k → rotateLoop maxFiles fs k 1 = none) := by
  intro k
  induction k with
  | zero =>
    intro fs hk hnone
    constructor
    · intro j h2 h1
      omega
    · intro h
      omega
  | succ k ih =>
    intro fs hk hnone
    have hdel : k + 1 ≠ maxFiles - 1 := by omega
    have hnone' : rotateStep maxFiles fs (k + 1) (k + 1) = none := by
      cases hfi : fs (k + 1) with
      | none => simp only [rotateStep, hfi]
      | some content => simp [rotateStep, hfi, hdel]
    have hkeep : ∀ j, j ≤ k → rotateStep maxFiles fs (k + 1) j = fs j := by
      intro j hjk
      apply rotateStep_untouched
      · omega
      · right; omega
    have hshift : rotateStep maxFiles fs (k + 1) (k + 2) = fs (k + 1) := by
      cases hfi : fs (k + 1) with
      | none =>
        simp only [rotateStep, hfi]
        exact hnone
      | some content => simp [rotateStep, hfi, hdel]
    obtain ⟨ihA, ihB⟩ := ih (rotateStep maxFiles fs (k + 1)) (by omega) hnone'
    constructor
    · intro j h2 h1
      show rotateLoop maxFiles (rotateStep maxFiles fs (k + 1)) k j = fs (j - 1)
      rcases Nat.lt_or_ge j (k + 2) with hj | hj
      · rw [ihA j h2 (by omega)]
        exact hkeep (j - 1) (by omega)
      · have hj2 : j = k + 2 := by omega
        subst hj2
        rw [rotateLoop_untouched maxFiles k (k + 2) (Or.inr (le_refl _))]
        rw [hshift]
        rfl
    · intro _
      show rotateLoop maxFiles (rotateStep maxFiles fs (k + 1)) k 1 = none
      rcases Nat.eq_zero_or_pos k with hk0 | hk1
      · subst hk0
        exact hnone'
      · exact ihB hk1

theorem rotate_full_char (maxSize maxFiles : Nat) (fs : Fs) (c : S)
    (hm : 2 ≤ maxFiles) (h0 : fs 0 = some c) (hsize : maxSize ≤ c.length) :
    rotate_log_if_needed maxSize maxFiles fs 0 = none ∧
    rotate_log_if_needed maxSize maxFiles fs 1 = some c ∧
    (∀ j, 2 ≤ j → j ≤ maxFiles - 1 →
      rotate_log_if_needed maxSize maxFiles fs j = fs (j - 1)) ∧
    (∀ j, maxFiles ≤ j → rotate_log_if_needed maxSize maxFiles fs j = fs j) := by
  have hns : ¬ c.length < maxSize := by omega
  have hub : rotate_log_if_needed maxSize maxFiles fs = fun j =>
      if j = 0 then none
      else if j = 1 then some c
      else rotateLoop maxFiles fs (maxFiles - 1) j := by
    simp only [rotate_log_if_needed, h0]
    rw [if_neg hns]
  have hstep : maxFiles - 1 = (maxFiles - 2) + 1 := by omega
  have hdel : rotateStep maxFiles fs (maxFiles - 1) (maxFiles - 1) = none := by
    cases hfi : fs (maxFiles - 1) with
    | none => simp only [rotateStep, hfi]
    | some content => simp [rotateStep, hfi]
  have hkeep : ∀ j, j ≠ maxFiles - 1 →
      rotateStep maxFiles fs (maxFiles - 1) j = fs j := by
    intro j hj
    exact rotateStep_untouched maxFiles fs (maxFiles - 1) j hj (Or.inl rfl)
  refine ⟨?_, ?_, ?_, ?_⟩
  · rw [hub]
    rfl
  · rw [hub]
    rfl
  · intro j h2 h1
    rw [hub]
    have hj0 : j ≠ 0 := by omega
    have hj1 : j ≠ 1 := by omega
    show (if j = 0 then none
          else if j = 1 then some c
          else rotateLoop maxFiles fs (maxFiles - 1) j) = fs (j - 1)
    rw [if_neg hj0, if_neg hj1]
    rw [hstep]
    show rotateLoop maxFiles (rotateStep maxFiles fs (maxFiles - 2 + 1))
      (maxFiles - 2) j = fs (j - 1)
    obtain ⟨ihA, _⟩ := rotateLoop_char maxFiles (maxFiles - 2)
      (rotateStep maxFiles fs (maxFiles - 2 + 1)) (by omega)
      (by rw [← hstep]; exact hdel)
    rw [ihA j h2 (by omega)]
    rw [← hstep]
    exact hkeep (j - 1) (by omega)
  · intro j hj
    rw [hub]
    show (if j = 0 then none
          else if j = 1 then some c
          else rotateLoop maxFiles fs (maxFiles - 1) j) = fs j
    rw [if_neg (by omega), if_neg (by omega)]
    rcases Nat.eq_or_lt_of_le hj with hj2 | hj2
    · rw [← hj2]
      exact rotateLoop_top_untouched maxFiles (maxFiles - 1) (le_refl _) (by omega) fs
    · exact rotateLoop_untouched maxFiles (maxFiles - 1) j (Or.inr (by omega)) fs

theorem count_range'_le (m n : Nat) :
    ((List.range' 1 n).filter (fun j => decide (j ≤ m))).length ≤ m := by
  rcases Nat.le_total n m with h | h
  · calc ((List.range' 1 n).filter (fun j => decide (j ≤ m))).length
        ≤ (List.range' 1 n).length := List.length_filter_le _ _
      _ = n := List.length_range' ..
      _ ≤ m := h
  · have hsplit : List.range' 1 n = List.range' 1 m ++ List.range' (1 + m) (n - m) := by
      rw [show 1 + m = 1 + 1 * m by omega, List.range'_append 1 m (n - m) 1]
      congr 1
      omega
    rw [hsplit, List.filter_append]
    have h2 : (List.range' (1 + m) (n - m)).filter (fun j => decide (j ≤ m)) = [] := by
      rw [List.filter_eq_nil_iff]
      intro a ha
      have hb := List.mem_range'_1.mp ha
      simp only [decide_eq_true_eq]
      omega
    rw [h2, List.append_nil]
    calc ((List.range' 1 m).filter (fun j => decide (j ≤ m))).length
        ≤ (List.range' 1 m).length := List.length_filter_le _ _
      _ = m := List.length_range' ..

/-- A filesystem state whose rotated slots vanish from suffix `m + 1` on
holds at most `m` rotated files. -/
theorem rotated_count_le (g : Fs) (m : Nat)
    (hg : ∀ j, m + 1 ≤ j → g j = none) (n : Nat) :
    ((List.range' 1 n).filter (fun j => (g j).isSome)).length ≤ m := by
  have hmono : ∀ j ∈ List.range' 1 n,
      (g j).isSome = true → decide (j ≤ m) = true := by
    intro j _ hsome
    simp only [decide_eq_true_eq]
    by_contra hgt
    rw [hg j (by omega)] at hsome
    simp at hsome
  calc ((List.range' 1 n).filter (fun j => (g j).isSome)).length
      = (List.range' 1 n).countP (fun j => (g j).isSome) :=
        (List.countP_eq_length_filter _ _).symm
    _ ≤ (List.range' 1 n).countP (fun j => decide (j ≤ m)) :=
        List.countP_mono_left hmono
    _ = ((List.range' 1 n).filter (fun j => decide (j ≤ m))).length :=
        List.countP_eq_length_filter _ _
    _ ≤ m := count_range'_le m n

/-- A concrete log directory: `security.log` holds 10 bytes, no rotated
files. -/
def fsFullMain : Fs := fun j => if j = 0 then some (str "0123456789") else none

/-! ## C7 -/

/-- C7: when the security log's size has reached the configured maximum,
the next append performs exactly one rotation cycle before the new line
is written — the log becomes `.1`, each `.i` becomes `.(i+1)`, the
oldest (`.(maxFiles-1)`) is deleted, the fresh log holds exactly the new
entry — and the number of retained rotated files never exceeds the
configured maximum.  (Stated for a reachable pre-state, i.e. one with no
rotated file at suffix `maxFiles` or beyond, and for a retention count
of at least two.) -/
theorem c7_rotation_at_threshold (maxSize maxFiles : Nat) (fs : Fs)
    (c entry : S) (hm : 2 ≤ maxFiles) (h0 : fs 0 = some c)
    (hsize : maxSize ≤ c.length)
    (hinv : ∀ j, maxFiles ≤ j → fs j = none) :
    log_event_fs maxSize maxFiles fs entry 0 = some entry ∧
    log_event_fs maxSize maxFiles fs entry 1 = some c ∧
    (∀ j, 2 ≤ j → j ≤ maxFiles - 1 →
      log_event_fs maxSize maxFiles fs entry j = fs (j - 1)) ∧
    (∀ j, maxFiles ≤ j → log_event_fs maxSize maxFiles fs entry j = none) ∧
    (∀ n, ((List.range' 1 n).filter
      (fun j => (log_event_fs maxSize maxFiles fs entry j).isSome)).length ≤
        maxFiles) := by
  obtain ⟨hr0, hr1, hrmid, hrtop⟩ :=
    rotate_full_char maxSize maxFiles fs c hm h0 hsize
  have hlog : ∀ j, log_event_fs maxSize maxFiles fs entry j =
      (if j = 0 then some ((rotate_log_if_needed maxSize maxFiles fs 0).getD [] ++ entry)
       else rotate_log_if_needed maxSize maxFiles fs j) := by
    intro j
    rfl
  refine ⟨?_, ?_, ?_, ?_, ?_⟩
  · rw [hlog 0, if_pos rfl, hr0]
    rfl
  · rw [hlog 1, if_neg (by omega), hr1]
  · intro j h2 h1
    rw [hlog j, if_neg (by omega)]
    exact hrmid j h2 h1
  · intro j hj
    rw [hlog j, if_neg (by omega), hrtop j hj]
    exact hinv j hj
  · intro n
    have hnone : ∀ j, (maxFiles - 1) + 1 ≤ j →
        log_event_fs maxSize maxFiles fs entry j = none := by
      intro j hj
      have hj' : maxFiles ≤ j := by omega
      rw [hlog j, if_neg (by omega), hrtop j hj']
      exact hinv j hj'
    calc ((List.range' 1 n).filter
        (fun j => (log_event_fs maxSize maxFiles fs entry j).isSome)).length
        ≤ maxFiles - 1 := rotated_count_le _ (maxFiles - 1) hnone n
      _ ≤ maxFiles := by omega

/-- C7 witness: default-like configuration (maxFiles 5), a full 10-byte
log and no rotated files. -/
theorem c7_rotation_at_threshold_witness :
    log_event_fs 10 5 fsFullMain (str "e") 0 = some (str "e") ∧
    log_event_fs 10 5 fsFullMain (str "e") 1 = some (str "0123456789") ∧
    (∀ j, 2 ≤ j → j ≤ 4 → log_event_fs 10 5 fsFullMain (str "e") j =
      fsFullMain (j - 1)) ∧
    (∀ j, 5 ≤ j → log_event_fs 10 5 fsFullMain (str "e") j = none) ∧
    (∀ n, ((List.range' 1 n).filter
      (fun j => (log_event_fs 10 5 fsFullMain (str "e") j).isSome)).length ≤ 5) :=
  c7_rotation_at_threshold 10 5 fsFullMain (str "0123456789") (str "e")
    (by decide) rfl (by decide)
    (fun j hj => if_neg (fun hj0 => absurd (hj0 ▸ hj) (by decide)))

/-! ## C10 -/

/-- C10 counterexample: with `AUDIT_LOG_MAX_FILES = 1` a single rotation
renames `security.log` to suffix `.1`, and `1 ≥ MAX_LOG_FILES`: a
rotated file with suffix `.MAX_LOG_FILES` is created. -/
theorem c10_counterexample :
    fsFullMain 1 = none ∧
    rotate_log_if_needed 10 1 fsFullMain 1 = some (str "0123456789") := by
  constructor
  · rfl
  · rfl

/-- C10 (amended): for a retention count of at least two, a single call
to `rotate_log_if_needed` never touches — in particular never creates —
a file at suffix `maxFiles` or beyond, and starting from a state with no
rotated file at suffix `maxFiles` or beyond, at most `maxFiles - 1`
rotated files (suffixes `.1` through `.(maxFiles-1)`) are retained
afterwards: at most 4 with the default `AUDIT_LOG_MAX_FILES` of 5. -/
theorem c10_no_rotated_file_at_max (maxSize maxFiles : Nat) (fs : Fs)
    (hm : 2 ≤ maxFiles) :
    (∀ j, maxFiles ≤ j → rotate_log_if_needed maxSize maxFiles fs j = fs j) ∧
    ((∀ j, maxFiles ≤ j → fs j = none) → ∀ n,
      ((List.range' 1 n).filter
        (fun j => (rotate_log_if_needed maxSize maxFiles fs j).isSome)).length ≤
          maxFiles - 1) := by
  have huntouched : ∀ j, maxFiles ≤ j →
      rotate_log_if_needed maxSize maxFiles fs j = fs j := by
    intro j hj
    cases h0 : fs 0 with
    | none =>
      simp only [rotate_log_if_needed, h0]
    | some c =>
      by_cases hsz : c.length < maxSize
      · simp only [rotate_log_if_needed, h0]
        rw [if_pos hsz]
      · exact (rotate_full_char maxSize maxFiles fs c hm h0 (by omega)).2.2.2 j hj
  refine ⟨huntouched, ?_⟩
  intro hinv n
  apply rotated_count_le
  intro j hj
  have hj' : maxFiles ≤ j := by omega
  rw [huntouched j hj']
  exact hinv j hj'

/-- C10 witness: the amended theorem at the default retention count. -/
theorem c10_no_rotated_file_at_max_witness :
    (∀ j, 5 ≤ j → rotate_log_if_needed 10 5 fsFullMain j = fsFullMain j) ∧
    ((∀ j, 5 ≤ j → fsFullMain j = none) → ∀ n,
      ((List.range' 1 n).filter
        (fun j => (rotate_log_if_needed 10 5 fsFullMain j).isSome)).length ≤ 4) :=
  c10_no_rotated_file_at_max 10 5 fsFullMain (by decide)
